import Mathlib

/-!
Verification of the chessvm block-lifecycle and game-state core.

Shallow embedding of the Rust sources:
  src/chessvm/src/block/mod.rs      (Block, to_vec/from_slice/try_new/verify/accept/reject)
  src/chessvm/src/block/tx/mod.rs   (Transaction, ActionType, execute and action helpers)
  src/chessvm/src/state/mod.rs      (State, calculate_game_id, game table and block store)

Modelling conventions:
* Rust machine integers (u64 heights, timestamps, game ids) are Nat; where the
  code can overflow, the wrap is written explicitly as arithmetic mod 2^64.
* The single key-value store is used by the code under two disjoint key
  families: per-block keys (a fixed status-prefix byte + delimiter + the
  32-byte block id, see block_with_status_key) and the fixed
  "last_accepted_block" key. These never collide, so the store is modelled
  as two fields: an association list keyed by block id, and an optional
  last-accepted entry. The stored last-accepted value is the raw id bytes
  (Id::to_vec, injective with Id::from_slice as its inverse), modelled as
  the id itself.
* HashMap is modelled as an association list with insert-replace semantics.
* serde_json::to_vec of a Block serializes exactly the non-skipped fields
  (parent_id, height, timestamp, message, txs; of each transaction only its
  action). The byte string is an injective function of those fields and
  serde_json::from_slice inverts it, so the canonical bytes are modelled as
  the record of serialized fields itself (SerBlock).
* External collaborators (the shakmaty rules engine: turn/is_legal/play and
  move parsing; std DefaultHasher; ids::Id::sha256) are parameters collected
  in the Ext structure; shakmaty's Chess::default() is the standard starting
  position with White to move, modelled by Chess.start.
* Rust methods that mutate through &mut self / shared Arc state are explicit
  state-passing functions. Where every error return happens before any
  mutation (verify, make_move, end_game) the function returns the unchanged
  state along with the error; Block::accept mutates the shared state while
  iterating over transactions, so it returns the partially updated state
  together with an optional error.
-/

namespace ChessVM

/-- avalanche_types ids::Id, a 32-byte identifier, modelled as its numeric
value; Id::empty() is the all-zero id. -/
abbrev Id := Nat

def Id.empty : Id := 0

/-- alloy_primitives::Address, a 20-byte account address, modelled as its
numeric value (< 256^20). -/
abbrev Address := Nat

/-- Little-endian base-256 digits of a, exactly k bytes (Address::as_slice). -/
def natToBytes : Nat → Nat → List Nat
  | 0, _ => []
  | k + 1, a => (a % 256) :: natToBytes k (a / 256)

/-- Decode base-256 little-endian bytes back into a number. -/
def bytesToNat : List Nat → Nat
  | [] => 0
  | d :: l => d + 256 * bytesToNat l

/-- The 20 bytes of an address, as fed to the game-id hasher. -/
def addrBytes (a : Address) : List Nat := natToBytes 20 a

/-- avalanche_types choices::status::Status (external crate): block decision
status. Its Default is Unknown with an empty string. -/
inductive Status
  | unknown (s : String)
  | processing
  | rejected
  | accepted
deriving DecidableEq

/-- Status::default() = Status::Unknown(""). -/
def Status.dflt : Status := .unknown ""

/-- shakmaty Color: the side to move. -/
inductive Color
  | white
  | black
deriving DecidableEq

/-- shakmaty Chess position (external rules engine); only the side to move is
inspected by this core, the rest of the position is opaque. -/
structure Chess where
  turn : Color
  pos : Nat
deriving DecidableEq

/-- shakmaty Chess::default(): the standard starting position, White to move. -/
def Chess.start : Chess := ⟨Color.white, 0⟩

/-- shakmaty Move (external), opaque to this core. -/
abbrev Move := Nat

/-- api::chain_handlers::MoveEnum: the externally supplied move description. -/
inductive MoveEnum
  | normal (role fromSq : String) (capture : Option String) (toSq : String)
      (promotion : Option String)
  | enPassant (fromSq toSq : String)
  | castle (king rook : String)
deriving DecidableEq

/-- block::tx::ActionType. -/
inductive ActionType
  | createGame (white black : Address) (block_id : Id)
  | endGame (game_id : Nat) (block_id : Id)
  | makeMove (player : Address) (game_id : Nat) (mv : MoveEnum) (block_id : Id)
  | unknown
deriving DecidableEq

/-- block::tx::Transaction; only `action` is serialized, the rest are
serde(skip) bookkeeping fields. -/
structure Transaction where
  action : ActionType
  bytes : List Nat
  id : Id
  size : Nat
  sender : Address
deriving DecidableEq

/-- A Transaction as serde_json::from_slice rebuilds it: the action plus
Default values for every skipped field. -/
def Transaction.ofAction (a : ActionType) : Transaction :=
  { action := a, bytes := [], id := 0, size := 0, sender := 0 }

/-- The content of serde_json::to_vec(&Block): exactly the non-skipped fields
(parent_id, height, timestamp, message, txs' actions), as an injective
canonical encoding. -/
structure SerBlock where
  parent_id : Id
  height : Nat
  timestamp : Nat
  message : String
  actions : List ActionType
deriving DecidableEq

/-- block::Block. The Rust struct also carries a reference to the shared
State (serde(skip), ignored by PartialEq); state is threaded explicitly
here instead. -/
structure Block where
  parent_id : Id
  height : Nat
  timestamp : Nat
  message : String
  txs : List Transaction
  id : Id
  status : Status
  bytes : SerBlock
deriving DecidableEq

/-- The derivative-derived PartialEq on Block: every field except txs and
state is compared. -/
def Block.peq (x y : Block) : Prop :=
  x.parent_id = y.parent_id ∧ x.height = y.height ∧ x.timestamp = y.timestamp ∧
  x.message = y.message ∧ x.id = y.id ∧ x.status = y.status ∧ x.bytes = y.bytes

instance (x y : Block) : Decidable (Block.peq x y) := by
  unfold Block.peq; infer_instance

/-- state::GameState: one chess game with its two registered players. -/
structure GameState where
  game : Chess
  white : Address
  black : Address
deriving DecidableEq

/-- state::BlockWithStatus: the persisted record for a decided block. -/
structure BlockWithStatus where
  block_bytes : SerBlock
  status : Status
deriving DecidableEq

/-- The external collaborators, as opaque capabilities:
isLegal/play are shakmaty Position::is_legal / Position::play,
convertMove is block::tx::convert_move's shakmaty-backed parsing
(Role::from_char / Square::from_ascii), hash is std DefaultHasher
(hash the byte sequence, then finish), sha256 is ids::Id::sha256 over the
canonical block bytes. -/
structure Ext where
  isLegal : Chess → Move → Bool
  play : Chess → Move → Option Chess
  convertMove : MoveEnum → Option Move
  hash : List Nat → Nat
  sha256 : SerBlock → Id

/-- The io::Error values this core produces, by message. -/
inductive Err
  | gameDoesNotExist
  | notPlayersTurn
  | makeMoveFailed
  | gameNotFound
  | convertMoveFailed
  | dbNotFound
  | dbOther (msg : String)
  | parentHeightMismatch
  | parentTimestampNewer
  | blockTooFarAhead
deriving DecidableEq

/-- Association-list lookup (HashMap::get). -/
def alookup {α β : Type} [DecidableEq α] : List (α × β) → α → Option β
  | [], _ => none
  | (k, v) :: l, a => if a = k then some v else alookup l a

/-- Association-list removal (HashMap::remove). -/
def aerase {α β : Type} [DecidableEq α] : List (α × β) → α → List (α × β)
  | [], _ => []
  | (k, v) :: l, a => if k = a then aerase l a else (k, v) :: aerase l a

/-- Association-list insert with replacement (HashMap::insert). -/
def ainsert {α β : Type} [DecidableEq α] (l : List (α × β)) (k : α) (v : β) :
    List (α × β) :=
  (k, v) :: aerase l k

/-- state::State: the persistent store (split into its two key families, see
the header), the verified-block cache, and the game table. -/
structure State where
  db_blocks : List (Id × BlockWithStatus)
  last_accepted : Option Id
  verified_blocks : List (Id × Block)
  game_states : List (Nat × GameState)
deriving DecidableEq

/-- state::calculate_game_id: hash the concatenation of the two 20-byte
addresses with the external hasher. -/
def calculate_game_id (E : Ext) (white black : Address) : Nat :=
  E.hash (addrBytes white ++ addrBytes black)

/-- State::create_new_game: unconditionally insert a fresh game at the
computed id and return the id. -/
def State.create_new_game (E : Ext) (s : State) (white black : Address) :
    State × Nat :=
  let game_id := calculate_game_id E white black
  ({ s with game_states :=
      ainsert s.game_states game_id ⟨Chess.start, white, black⟩ }, game_id)

/-- The tail of State::make_move after the turn check: legality gate, then
play and write back. -/
def makeMoveApply (E : Ext) (s : State) (game_id : Nat) (curr_game : GameState)
    (mv : Move) : State × Option Err :=
  if !(E.isLegal curr_game.game mv) then (s, none)
  else
    match E.play curr_game.game mv with
    | some v =>
        ({ s with game_states :=
            ainsert s.game_states game_id { curr_game with game := v } }, none)
    | none => (s, some Err.makeMoveFailed)

/-- State::make_move: look the game up, enforce the turn, gate on legality,
apply and write back. -/
def State.make_move (E : Ext) (s : State) (player : Address) (game_id : Nat)
    (mv : Move) : State × Option Err :=
  match alookup s.game_states game_id with
  | none => (s, some Err.gameDoesNotExist)
  | some curr_game =>
    if curr_game.game.turn = Color.white then
      if player ≠ curr_game.white then (s, some Err.notPlayersTurn)
      else makeMoveApply E s game_id curr_game mv
    else
      if player ≠ curr_game.black then (s, some Err.notPlayersTurn)
      else makeMoveApply E s game_id curr_game mv

/-- State::end_game: remove the game if present, returning its final board. -/
def State.end_game (s : State) (game_id : Nat) : State × Except Err Chess :=
  match alookup s.game_states game_id with
  | none => (s, Except.error Err.gameNotFound)
  | some gs => ({ s with game_states := aerase s.game_states game_id },
      Except.ok gs.game)

/-- State::get_game. -/
def State.get_game (s : State) (game_id : Nat) : Option Chess :=
  (alookup s.game_states game_id).map (fun v => v.game)

/-- State::game_exists. -/
def State.game_exists (s : State) (game_id : Nat) : Bool :=
  (alookup s.game_states game_id).isSome

/-- Block::to_vec: serde_json serialization of the non-skipped fields. -/
def Block.to_vec (b : Block) : SerBlock :=
  ⟨b.parent_id, b.height, b.timestamp, b.message, b.txs.map (fun t => t.action)⟩

/-- Block::from_slice: deserialize (skipped fields get Defaults), then set
bytes to the input and recompute id as sha256 of the bytes. -/
def Block.from_slice (E : Ext) (d : SerBlock) : Block :=
  { parent_id := d.parent_id, height := d.height, timestamp := d.timestamp,
    message := d.message, txs := d.actions.map Transaction.ofAction,
    id := E.sha256 d, status := Status.dflt, bytes := d }

/-- Block::set_status. -/
def Block.set_status (b : Block) (st : Status) : Block := { b with status := st }

/-- Block::try_new: build the block, serialize it, and derive the id from the
canonical bytes. -/
def Block.try_new (E : Ext) (parent_id : Id) (height timestamp : Nat)
    (message : String) (txs : List Transaction) (status : Status) : Block :=
  let ser : SerBlock :=
    ⟨parent_id, height, timestamp, message, txs.map (fun t => t.action)⟩
  { parent_id := parent_id, height := height, timestamp := timestamp,
    message := message, txs := txs, id := E.sha256 ser, status := status,
    bytes := ser }

/-- State::write_block: persist ⟨canonical bytes, status⟩ under the block id. -/
def State.write_block (s : State) (b : Block) : State :=
  { s with db_blocks := ainsert s.db_blocks b.id ⟨Block.to_vec b, b.status⟩ }

/-- State::set_last_accepted_block. -/
def State.set_last_accepted_block (s : State) (blk_id : Id) : State :=
  { s with last_accepted := some blk_id }

/-- State::has_last_accepted_block. -/
def State.has_last_accepted_block (s : State) : Bool := s.last_accepted.isSome

/-- memdb get of the last-accepted key: the raw result before State's
not-found mapping; absent keys are the database's NotFound error. -/
def db_get_last_accepted (s : State) : Except Err Id :=
  match s.last_accepted with
  | some d => Except.ok d
  | none => Except.error Err.dbNotFound

/-- subnet::rpc::errors::is_not_found. -/
def is_not_found : Err → Bool
  | Err.dbNotFound => true
  | _ => false

/-- The match in State::get_last_accepted_block_id applied to the raw store
result: Ok passes through (Id::from_slice of the stored bytes), NotFound
becomes Ok(empty id), any other error is surfaced. -/
def get_last_accepted_from (r : Except Err Id) : Except Err Id :=
  match r with
  | Except.ok d => Except.ok d
  | Except.error e => if is_not_found e then Except.ok Id.empty else Except.error e

/-- State::get_last_accepted_block_id. -/
def State.get_last_accepted_block_id (s : State) : Except Err Id :=
  get_last_accepted_from (db_get_last_accepted s)

/-- State::add_verified. -/
def State.add_verified (s : State) (b : Block) : State :=
  { s with verified_blocks := ainsert s.verified_blocks b.id b }

/-- State::remove_verified. -/
def State.remove_verified (s : State) (blk_id : Id) : State :=
  { s with verified_blocks := aerase s.verified_blocks blk_id }

/-- State::has_verified. -/
def State.has_verified (s : State) (blk_id : Id) : Bool :=
  (alookup s.verified_blocks blk_id).isSome

/-- State::get_block: the verified-block cache first, then the persistent
store (decoding the stored bytes and applying the stored status). -/
def State.get_block (E : Ext) (s : State) (blk_id : Id) : Except Err Block :=
  match alookup s.verified_blocks blk_id with
  | some b => Except.ok b
  | none =>
    match alookup s.db_blocks blk_id with
    | none => Except.error Err.dbNotFound
    | some bws => Except.ok ((Block.from_slice E bws.block_bytes).set_status bws.status)

/-- Transaction::execute: dispatch on the action (the TransactionContext's
only consulted field is the shared state, threaded here directly). -/
def Transaction.execute (E : Ext) (s : State) (t : Transaction) :
    State × Option Err :=
  match t.action with
  | ActionType.unknown => (s, none)
  | ActionType.createGame white black _ =>
      ((State.create_new_game E s white black).1, none)
  | ActionType.endGame game_id _ =>
      match State.end_game s game_id with
      | (s₁, Except.ok _) => (s₁, none)
      | (s₁, Except.error e) => (s₁, some e)
  | ActionType.makeMove player game_id mv _ =>
      match E.convertMove mv with
      | none => (s, some Err.convertMoveFailed)
      | some m => State.make_move E s player game_id m

/-- The transaction loop of Block::accept: execute in list order, stopping at
the first error; the state reached so far is kept (shared mutable state). -/
def executeList (E : Ext) : State → List Transaction → State × Option Err
  | s, [] => (s, none)
  | s, t :: ts =>
    match Transaction.execute E s t with
    | (s₁, none) => executeList E s₁ ts
    | (s₁, some e) => (s₁, some e)

/-- Block::accept: set status Accepted, execute every transaction in list
order (short-circuiting on the first error), then persist the block, update
the last-accepted pointer and evict from the verified-block cache. -/
def Block.accept (E : Ext) (s : State) (b : Block) : State × Option Err :=
  let bA := b.set_status Status.accepted
  match executeList E s bA.txs with
  | (s₁, some e) => (s₁, some e)
  | (s₁, none) =>
    let s₂ := State.write_block s₁ bA
    let s₃ := State.set_last_accepted_block s₂ bA.id
    let s₄ := State.remove_verified s₃ bA.id
    (s₄, none)

/-- Block::reject: set status Rejected, persist, evict from the cache; the
transactions are never executed. -/
def Block.reject (s : State) (b : Block) : State × Option Err :=
  let bR := b.set_status Status.rejected
  let s₂ := State.write_block s bR
  let s₃ := State.remove_verified s₂ bR.id
  (s₃, none)

def U64 : Nat := 2 ^ 64

/-- The u64 expression self.height - 1 of Block::verify with release-build
wrap-around semantics: subtracting 1 modulo 2^64. -/
def wrapSub1 (h : Nat) : Nat := (h + (U64 - 1)) % U64

def exceptIsOk {α β : Type} : Except α β → Bool
  | Except.ok _ => true
  | Except.error _ => false

/-- Block::verify: genesis rule, already-decided rule, then parent fetch and
the height / parent-timestamp / clock-skew checks; on success the block is
added to the verified-block cache. now is the node's local Unix time
(Utc::now), so now + 3600 is one hour from now. -/
def Block.verify (E : Ext) (s : State) (b : Block) (now : Nat) :
    State × Option Err :=
  if b.height = 0 ∧ b.parent_id = Id.empty then
    (State.add_verified s b, none)
  else if exceptIsOk (State.get_block E s b.id) then
    (s, none)
  else
    match State.get_block E s b.parent_id with
    | Except.error e => (s, some e)
    | Except.ok prnt_blk =>
      if prnt_blk.height ≠ wrapSub1 b.height then
        (s, some Err.parentHeightMismatch)
      else if prnt_blk.timestamp > b.timestamp then
        (s, some Err.parentTimestampNewer)
      else if b.timestamp ≥ now + 3600 then
        (s, some Err.blockTooFarAhead)
      else
        (State.add_verified s b, none)

/-! ## Association-list lemmas -/

lemma alookup_ainsert_self {α β : Type} [DecidableEq α] (l : List (α × β))
    (k : α) (v : β) : alookup (ainsert l k v) k = some v := by
  simp [ainsert, alookup]

lemma alookup_aerase_self {α β : Type} [DecidableEq α] (l : List (α × β))
    (k : α) : alookup (aerase l k) k = none := by
  induction l with
  | nil => rfl
  | cons p l ih =>
    obtain ⟨a, b⟩ := p
    by_cases h : a = k
    · simpa [aerase, h] using ih
    · simp [aerase, alookup, h, Ne.symm h, ih]

/-! ## Concrete instances used by witnesses and counterexamples -/

/-- A concrete instantiation of the external collaborators: every move is
legal and leaves the position unchanged, parsing always succeeds, the hasher
is an injective fold of the Cantor pairing function, and the content hash is
a constant. -/
def extTriv : Ext :=
  { isLegal := fun _ _ => true, play := fun c _ => some c,
    convertMove := fun _ => some 0, hash := fun l => l.foldr Nat.pair 0,
    sha256 := fun _ => 0 }

/-- Like extTriv but the rules engine reports every move illegal. -/
def extIllegal : Ext := { extTriv with isLegal := fun _ _ => false }

/-- A fresh state: empty store, no last-accepted pointer, empty caches. -/
def emptyState : State := ⟨[], none, [], []⟩

/-- A one-game state: game 5 at the starting position, white player 1,
black player 2. -/
def oneGameState : State := ⟨[], none, [], [(5, ⟨Chess.start, 1, 2⟩)]⟩

/-! ## C9: last-accepted lookup maps not-found to the empty id -/

/-- C9: when no last-accepted block has been recorded, the store's NotFound
result for the last-accepted key is mapped to a successful empty identifier,
while any other store failure is surfaced as an error. -/
theorem get_last_accepted_empty_on_not_found (s : State)
    (hs : s.last_accepted = none) :
    State.get_last_accepted_block_id s = Except.ok Id.empty
    ∧ get_last_accepted_from (Except.error Err.dbNotFound) = Except.ok Id.empty
    ∧ (∀ m : String, get_last_accepted_from (Except.error (Err.dbOther m))
        = Except.error (Err.dbOther m)) := by
  refine ⟨?_, rfl, fun m => rfl⟩
  simp [State.get_last_accepted_block_id, db_get_last_accepted, hs,
    get_last_accepted_from, is_not_found]

/-- C9 witness: the empty state has no last-accepted pointer, and the lookup
returns the empty id as a success. -/
theorem get_last_accepted_empty_on_not_found_witness :
    State.get_last_accepted_block_id emptyState = Except.ok Id.empty :=
  (get_last_accepted_empty_on_not_found emptyState rfl).1

/-! ## C4: an illegal move from the correct player is a silent no-op -/

/-- C4: if the correct player (the turn check passes) submits a move that the
rules engine reports illegal, make_move returns success and the game table —
in particular the board of that game — is unchanged. -/
theorem make_move_illegal_is_silent_noop (E : Ext) (s : State) (p : Address)
    (gid : Nat) (mv : Move) (gs : GameState)
    (hg : alookup s.game_states gid = some gs)
    (hturn : (gs.game.turn = Color.white ∧ p = gs.white)
      ∨ (gs.game.turn = Color.black ∧ p = gs.black))
    (hil : E.isLegal gs.game mv = false) :
    State.make_move E s p gid mv = (s, none)
    ∧ State.get_game (State.make_move E s p gid mv).1 gid = State.get_game s gid := by
  have hmain : State.make_move E s p gid mv = (s, none) := by
    rcases hturn with ⟨ht, hp⟩ | ⟨ht, hp⟩ <;>
      simp [State.make_move, hg, ht, hp, makeMoveApply, hil]
  exact ⟨hmain, by rw [hmain]⟩

/-- C4 witness: in the one-game state, the white player's illegal move is
accepted as a no-op and the board is unchanged. -/
theorem make_move_illegal_is_silent_noop_witness :
    State.make_move extIllegal oneGameState 1 5 0 = (oneGameState, none) :=
  (make_move_illegal_is_silent_noop extIllegal oneGameState 1 5 0
    ⟨Chess.start, 1, 2⟩ rfl (Or.inl ⟨rfl, rfl⟩) rfl).1

/-! ## C3: turn enforcement in make_move -/

/-- C3: on an existing game, a move by an address other than the side to
move's registered player fails with the not-player's-turn error; on a freshly
created game (White to move), the black player's move fails with that error
while the identical move from the white player passes the turn check. -/
theorem make_move_enforces_turn (E : Ext) :
    (∀ (s : State) (p : Address) (gid : Nat) (mv : Move) (gs : GameState),
      alookup s.game_states gid = some gs →
      ((gs.game.turn = Color.white ∧ p ≠ gs.white)
        ∨ (gs.game.turn = Color.black ∧ p ≠ gs.black)) →
      State.make_move E s p gid mv = (s, some Err.notPlayersTurn))
    ∧ (∀ (s : State) (a b : Address) (mv : Move), b ≠ a →
      State.make_move E (State.create_new_game E s a b).1 b
          (State.create_new_game E s a b).2 mv
        = ((State.create_new_game E s a b).1, some Err.notPlayersTurn)
      ∧ (State.make_move E (State.create_new_game E s a b).1 a
          (State.create_new_game E s a b).2 mv).2 ≠ some Err.notPlayersTurn) := by
  constructor
  · intro s p gid mv gs hg hturn
    rcases hturn with ⟨ht, hp⟩ | ⟨ht, hp⟩ <;>
      simp [State.make_move, hg, ht, hp]
  · intro s a b mv hba
    have hg : alookup (State.create_new_game E s a b).1.game_states
        (State.create_new_game E s a b).2 = some ⟨Chess.start, a, b⟩ := by
      simp [State.create_new_game]
      exact alookup_ainsert_self _ _ _
    constructor
    · simp [State.make_move, hg, Chess.start, hba]
    · simp only [State.make_move, hg]
      simp only [Chess.start, ite_true, if_pos rfl]
      simp [makeMoveApply]
      rcases h : E.isLegal ⟨Color.white, 0⟩ mv with _ | _ <;>
        rcases hp : E.play ⟨Color.white, 0⟩ mv with _ | _ <;>
        simp [h, hp]

/-- C3 witness: with white=1 and black=2 on a fresh game, black's move fails
with the turn error. -/
theorem make_move_enforces_turn_witness :
    State.make_move extTriv (State.create_new_game extTriv emptyState 1 2).1 2
        (State.create_new_game extTriv emptyState 1 2).2 0
      = ((State.create_new_game extTriv emptyState 1 2).1,
          some Err.notPlayersTurn) :=
  ((make_move_enforces_turn extTriv).2 emptyState 1 2 0 (by decide)).1

/-! ## C7: serialization round-trip -/

/-- C7 counterexample: a block built by try_new with status Accepted does not
round-trip to an equal block — from_slice leaves the serde-skipped status
field at its Default, and the derived PartialEq compares status. -/
theorem block_roundtrip_resets_status_cex :
    ¬ Block.peq
      (Block.from_slice extTriv
        (Block.to_vec (Block.try_new extTriv 0 1 2 "m" [] Status.accepted)))
      (Block.try_new extTriv 0 1 2 "m" [] Status.accepted) := by
  decide

/-- C7 (amended): for every block b produced by try_new,
from_slice(to_vec(b)) reproduces b's serialized fields and bytes, and the
recomputed content hash equals b.id; the status field resets to the Default
status, so the round-tripped block is PartialEq-equal to b exactly when b was
built with the default status. -/
theorem block_roundtrip_fields_and_id (E : Ext) (pid : Id) (hgt ts : Nat)
    (msg : String) (txs : List Transaction) (st : Status) :
    (Block.from_slice E (Block.to_vec (Block.try_new E pid hgt ts msg txs st))).id
      = (Block.try_new E pid hgt ts msg txs st).id
    ∧ (Block.from_slice E (Block.to_vec (Block.try_new E pid hgt ts msg txs st))).bytes
      = (Block.try_new E pid hgt ts msg txs st).bytes
    ∧ (Block.from_slice E (Block.to_vec (Block.try_new E pid hgt ts msg txs st))).parent_id
      = (Block.try_new E pid hgt ts msg txs st).parent_id
    ∧ (Block.from_slice E (Block.to_vec (Block.try_new E pid hgt ts msg txs st))).height
      = (Block.try_new E pid hgt ts msg txs st).height
    ∧ (Block.from_slice E (Block.to_vec (Block.try_new E pid hgt ts msg txs st))).timestamp
      = (Block.try_new E pid hgt ts msg txs st).timestamp
    ∧ (Block.from_slice E (Block.to_vec (Block.try_new E pid hgt ts msg txs st))).message
      = (Block.try_new E pid hgt ts msg txs st).message
    ∧ (Block.from_slice E (Block.to_vec (Block.try_new E pid hgt ts msg txs st))).status
      = Status.dflt
    ∧ (st = Status.dflt →
        Block.peq
          (Block.from_slice E (Block.to_vec (Block.try_new E pid hgt ts msg txs st)))
          (Block.try_new E pid hgt ts msg txs st)) := by
  refine ⟨rfl, rfl, rfl, rfl, rfl, rfl, rfl, fun hst => ?_⟩
  subst hst
  exact ⟨rfl, rfl, rfl, rfl, rfl, rfl, rfl⟩

/-- C7 witness: a block built with the default status round-trips to a
PartialEq-equal block. -/
theorem block_roundtrip_fields_and_id_witness :
    Block.peq
      (Block.from_slice extTriv
        (Block.to_vec (Block.try_new extTriv 0 1 2 "m" [] Status.dflt)))
      (Block.try_new extTriv 0 1 2 "m" [] Status.dflt) :=
  (block_roundtrip_fields_and_id extTriv 0 1 2 "m" [] Status.dflt).2.2.2.2.2.2.2 rfl

/-! ## C8: game identifiers are order-sensitive and deterministic -/

lemma natToBytes_length : ∀ (k a : Nat), (natToBytes k a).length = k := by
  intro k
  induction k with
  | zero => intro a; rfl
  | succ k ih => intro a; simp [natToBytes, ih]

lemma bytesToNat_natToBytes : ∀ (k a : Nat), a < 256 ^ k →
    bytesToNat (natToBytes k a) = a := by
  intro k
  induction k with
  | zero =>
    intro a ha
    interval_cases a
    rfl
  | succ k ih =>
    intro a ha
    have hdiv : a / 256 < 256 ^ k := by
      rw [Nat.div_lt_iff_lt_mul (by norm_num : 0 < 256)]
      calc a < 256 ^ (k + 1) := ha
        _ = 256 ^ k * 256 := by rw [pow_succ]
    simp only [natToBytes, bytesToNat, ih (a / 256) hdiv]
    exact Nat.mod_add_div a 256

/-- An equal-length fold of the pairing function is injective: the concrete
hasher used by the C8 witness. -/
lemma pairFold_inj : ∀ (x y : List Nat), x.length = y.length →
    x.foldr Nat.pair 0 = y.foldr Nat.pair 0 → x = y := by
  intro x
  induction x with
  | nil =>
    intro y hl _
    cases y with
    | nil => rfl
    | cons b ys => simp at hl
  | cons a xs ih =>
    intro y hl hf
    cases y with
    | nil => simp at hl
    | cons b ys =>
      simp only [List.foldr] at hf
      obtain ⟨hab, hxy⟩ := Nat.pair_eq_pair.mp hf
      simp only [List.length_cons, Nat.succ.injEq] at hl
      rw [hab, ih ys hl hxy]

/-- C8: whenever the external hasher does not collide on the two 40-byte
inputs (an assumption the spec records as negligible-collision), swapping two
distinct white/black addresses changes the game identifier; and for a fixed
ordered pair the identifier is deterministic. -/
theorem calculate_game_id_order_sensitive (E : Ext)
    (hinj : ∀ x y : List Nat, x.length = 40 → y.length = 40 →
      E.hash x = E.hash y → x = y)
    (w b : Address) (hw : w < 256 ^ 20) (hb : b < 256 ^ 20) (hne : w ≠ b) :
    calculate_game_id E w b ≠ calculate_game_id E b w
    ∧ calculate_game_id E w b = calculate_game_id E w b := by
  refine ⟨?_, rfl⟩
  intro heq
  have hlen : ∀ u v : Address, (addrBytes u ++ addrBytes v).length = 40 := by
    intro u v
    simp [addrBytes, natToBytes_length]
  have hl := hinj _ _ (hlen w b) (hlen b w) heq
  have hsp := List.append_inj hl (by simp [addrBytes, natToBytes_length])
  have h1 := congrArg bytesToNat hsp.1
  rw [addrBytes, addrBytes, bytesToNat_natToBytes 20 w hw,
    bytesToNat_natToBytes 20 b hb] at h1
  exact hne h1

/-- C8 witness: with the injective pairing-fold hasher, the ids of (0, 1) and
(1, 0) differ. -/
theorem calculate_game_id_order_sensitive_witness :
    calculate_game_id extTriv 0 1 ≠ calculate_game_id extTriv 1 0 :=
  (calculate_game_id_order_sensitive extTriv
    (fun x y hx hy h => pairFold_inj x y (hx.trans hy.symm) h)
    0 1 (by decide) (by decide) (by decide)).1

/-! ## Transaction execution touches only the game table -/

lemma make_move_preserves (E : Ext) (s : State) (p : Address) (gid : Nat)
    (mv : Move) :
    (State.make_move E s p gid mv).1.db_blocks = s.db_blocks
    ∧ (State.make_move E s p gid mv).1.last_accepted = s.last_accepted
    ∧ (State.make_move E s p gid mv).1.verified_blocks = s.verified_blocks := by
  unfold State.make_move makeMoveApply
  (repeat' split) <;> exact ⟨rfl, rfl, rfl⟩

lemma end_game_preserves (s : State) (gid : Nat) :
    (State.end_game s gid).1.db_blocks = s.db_blocks
    ∧ (State.end_game s gid).1.last_accepted = s.last_accepted
    ∧ (State.end_game s gid).1.verified_blocks = s.verified_blocks := by
  unfold State.end_game
  (repeat' split) <;> exact ⟨rfl, rfl, rfl⟩

lemma execute_preserves (E : Ext) (s : State) (t : Transaction) :
    (Transaction.execute E s t).1.db_blocks = s.db_blocks
    ∧ (Transaction.execute E s t).1.last_accepted = s.last_accepted
    ∧ (Transaction.execute E s t).1.verified_blocks = s.verified_blocks := by
  rcases t with ⟨a, tb, ti, tz, td⟩
  cases a with
  | unknown => exact ⟨rfl, rfl, rfl⟩
  | createGame w bk bid => exact ⟨rfl, rfl, rfl⟩
  | makeMove p gid mv bid =>
    rcases h : E.convertMove mv with _ | m
    · simp [Transaction.execute, h]
    · simp only [Transaction.execute, h]
      exact make_move_preserves E s p gid m
  | endGame gid bid =>
    have hp := end_game_preserves s gid
    rcases he : State.end_game s gid with ⟨s₁, r⟩
    rw [he] at hp
    simp only [Transaction.execute, he]
    cases r with
    | ok c => exact hp
    | error e => exact hp

lemma executeList_preserves (E : Ext) : ∀ (l : List Transaction) (s : State),
    (executeList E s l).1.db_blocks = s.db_blocks
    ∧ (executeList E s l).1.last_accepted = s.last_accepted
    ∧ (executeList E s l).1.verified_blocks = s.verified_blocks := by
  intro l
  induction l with
  | nil => intro s; exact ⟨rfl, rfl, rfl⟩
  | cons t ts ih =>
    intro s
    have hp := execute_preserves E s t
    rcases hx : Transaction.execute E s t with ⟨s₁, r⟩
    rw [hx] at hp
    cases r with
    | none =>
      have hrec := ih s₁
      simp only [executeList, hx]
      exact ⟨hrec.1.trans hp.1, hrec.2.1.trans hp.2.1, hrec.2.2.trans hp.2.2⟩
    | some e =>
      simp only [executeList, hx]
      exact hp

/-- The loop of Block::accept stops at the first failing transaction: the
error was produced by the transaction at some position k, after the k-transaction
prefix executed successfully. -/
lemma executeList_firstError (E : Ext) : ∀ (l : List Transaction)
    (s s₁ : State) (e : Err), executeList E s l = (s₁, some e) →
    ∃ (k : Nat) (sk : State) (t : Transaction), k < l.length
      ∧ executeList E s (l.take k) = (sk, none)
      ∧ l.get? k = some t
      ∧ Transaction.execute E sk t = (s₁, some e) := by
  intro l
  induction l with
  | nil =>
    intro s s₁ e h
    simp [executeList] at h
  | cons t ts ih =>
    intro s s₁ e h
    rcases hx : Transaction.execute E s t with ⟨s', r⟩
    cases r with
    | some e' =>
      simp only [executeList, hx, Prod.mk.injEq, Option.some.injEq] at h
      refine ⟨0, s, t, by simp, rfl, rfl, ?_⟩
      rw [hx, h.1, h.2]
    | none =>
      simp only [executeList, hx] at h
      obtain ⟨k, sk, t', hk, htake, hget, hex⟩ := ih s' s₁ e h
      refine ⟨k + 1, sk, t', by simpa using hk, ?_, by simpa using hget, hex⟩
      simp only [List.take_succ_cons, executeList, hx]
      exact htake

/-- Block::accept unfolded: the transaction loop, then (on success) persist,
update the last-accepted pointer, and evict from the cache. -/
lemma accept_eq (E : Ext) (s : State) (b : Block) :
    Block.accept E s b =
      match executeList E s b.txs with
      | (s₁, some e) => (s₁, some e)
      | (s₁, none) =>
        (State.remove_verified
          (State.set_last_accepted_block
            (State.write_block s₁ (b.set_status Status.accepted)) b.id) b.id,
          none) := rfl

/-! ## C1: accept executes in list order, short-circuits, and persists -/

/-- C1: during accept the transactions run strictly in list order; on the
first failing transaction accept returns that error with the block not
persisted, the last-accepted pointer untouched, the cache untouched, and the
effects of the earlier transactions kept (the returned state is the one the
successful prefix produced); if every transaction succeeds, accept persists
the block (bytes + Accepted status) under its id, points last-accepted at
this block, and evicts it from the verified-block cache. -/
theorem accept_executes_txs_in_order (E : Ext) (s : State) (b : Block) :
    (∀ (s₁ : State) (e : Err), executeList E s b.txs = (s₁, some e) →
      Block.accept E s b = (s₁, some e)
      ∧ s₁.db_blocks = s.db_blocks
      ∧ s₁.last_accepted = s.last_accepted
      ∧ s₁.verified_blocks = s.verified_blocks
      ∧ ∃ (k : Nat) (sk : State) (t : Transaction), k < b.txs.length
          ∧ executeList E s (b.txs.take k) = (sk, none)
          ∧ b.txs.get? k = some t
          ∧ Transaction.execute E sk t = (s₁, some e))
    ∧ (∀ s₁ : State, executeList E s b.txs = (s₁, none) →
      (Block.accept E s b).2 = none
      ∧ (Block.accept E s b).1.game_states = s₁.game_states
      ∧ alookup (Block.accept E s b).1.db_blocks b.id
          = some ⟨Block.to_vec b, Status.accepted⟩
      ∧ (Block.accept E s b).1.last_accepted = some b.id
      ∧ alookup (Block.accept E s b).1.verified_blocks b.id = none) := by
  constructor
  · intro s₁ e h
    have hp := executeList_preserves E b.txs s
    rw [h] at hp
    refine ⟨?_, hp.1, hp.2.1, hp.2.2, executeList_firstError E b.txs s s₁ e h⟩
    rw [accept_eq, h]
  · intro s₁ h
    have hacc := accept_eq E s b
    rw [h] at hacc
    rw [hacc]
    refine ⟨rfl, rfl, ?_, rfl, ?_⟩
    · exact alookup_ainsert_self _ _ _
    · exact alookup_aerase_self _ _

/-- A transaction-free block used to exercise accept's success path. -/
def c1Block : Block := ⟨0, 1, 5, "blk", [], 77, Status.processing, ⟨0, 1, 5, "blk", []⟩⟩

/-- C1 witness: accepting a block from the empty state persists it under its
id with status Accepted and moves the last-accepted pointer onto it. -/
theorem accept_executes_txs_in_order_witness :
    alookup ((Block.accept extTriv emptyState c1Block).1).db_blocks c1Block.id
      = some ⟨Block.to_vec c1Block, Status.accepted⟩
    ∧ (Block.accept extTriv emptyState c1Block).1.last_accepted
      = some c1Block.id := by
  have h := (accept_executes_txs_in_order extTriv emptyState c1Block).2
    emptyState rfl
  exact ⟨h.2.2.1, h.2.2.2.1⟩

/-! ## C5: a second accept re-executes the transactions -/

/-- A block whose single transaction ends game 5. -/
def c5Block : Block :=
  ⟨0, 1, 5, "", [Transaction.ofAction (ActionType.endGame 5 0)], 77,
    Status.processing, ⟨0, 1, 5, "", [ActionType.endGame 5 0]⟩⟩

/-- C5 counterexample: accept has no already-accepted guard. Accepting a
block whose transaction ends game 5 succeeds, and calling accept again on
the very same (now accepted and persisted) block re-executes the EndGame
transaction, which now fails with the game-not-found error — so the
transaction is not executed exactly once over the block's lifecycle. -/
theorem accept_second_call_reexecutes_cex :
    (Block.accept extTriv oneGameState c5Block).2 = none
    ∧ (Block.accept extTriv (Block.accept extTriv oneGameState c5Block).1
        c5Block).2 ≠ none
    ∧ (Block.accept extTriv (Block.accept extTriv oneGameState c5Block).1
        c5Block).2 = some Err.gameNotFound := by
  decide

/-- C5 (amended): accept() re-executes the whole transaction list on every
call — there is no already-accepted guard. Concretely, for a block whose
transaction list is one EndGame on a game present in the state, the first
accept succeeds and removes the game, and a second accept on the
already-accepted block fails with the game-not-found error. -/
theorem accept_has_no_idempotence_guard (E : Ext) (s : State) (b : Block)
    (t : Transaction) (gid : Nat) (bid : Id) (gs : GameState)
    (hgs : alookup s.game_states gid = some gs)
    (ht : t.action = ActionType.endGame gid bid)
    (htx : b.txs = [t]) :
    (Block.accept E s b).2 = none
    ∧ (Block.accept E (Block.accept E s b).1 b).2 = some Err.gameNotFound := by
  have hex1 : Transaction.execute E s t
      = ({ s with game_states := aerase s.game_states gid }, none) := by
    unfold Transaction.execute
    rw [ht]
    simp [State.end_game, hgs]
  have hlist1 : executeList E s b.txs
      = ({ s with game_states := aerase s.game_states gid }, none) := by
    rw [htx]
    simp only [executeList, hex1]
  have hacc1 := accept_eq E s b
  rw [hlist1] at hacc1
  have hgames : (Block.accept E s b).1.game_states = aerase s.game_states gid := by
    rw [hacc1]
    rfl
  have hex2 : Transaction.execute E (Block.accept E s b).1 t
      = ((Block.accept E s b).1, some Err.gameNotFound) := by
    unfold Transaction.execute
    rw [ht]
    simp [State.end_game, hgames, alookup_aerase_self]
  have hlist2 : executeList E (Block.accept E s b).1 b.txs
      = ((Block.accept E s b).1, some Err.gameNotFound) := by
    rw [htx]
    simp only [executeList, hex2]
  have hacc2 := accept_eq E (Block.accept E s b).1 b
  rw [hlist2] at hacc2
  refine ⟨?_, ?_⟩
  · rw [hacc1]
  · rw [hacc2]

/-- C5 witness for the amended claim: the concrete one-game state and the
EndGame block. -/
theorem accept_has_no_idempotence_guard_witness :
    (Block.accept extTriv oneGameState c5Block).2 = none
    ∧ (Block.accept extTriv (Block.accept extTriv oneGameState c5Block).1
        c5Block).2 = some Err.gameNotFound :=
  accept_has_no_idempotence_guard extTriv oneGameState c5Block
    (Transaction.ofAction (ActionType.endGame 5 0)) 5 0 ⟨Chess.start, 1, 2⟩
    rfl rfl rfl

/-! ## Verify: C2, C6 and C10 -/

/-- After add_verified, the block is retrievable from the cache as-is. -/
lemma get_block_add_verified (E : Ext) (s : State) (b : Block) :
    State.get_block E (State.add_verified s b) b.id = Except.ok b := by
  simp [State.get_block, State.add_verified, alookup_ainsert_self]

/-- C2: for a non-genesis block whose id is not already retrievable, verify
succeeds iff the parent is retrievable (cache or store) with
parent.height = self.height - 1 (the code's u64 expression, wrapSub1),
parent.timestamp ≤ self.timestamp, and self.timestamp < now + 1 hour; on
success the block is added to the verified-block cache and becomes
retrievable via get_block, and on any failing check verify errors with the
state unchanged. -/
theorem verify_checks_parent_height_timestamps (E : Ext) (s : State)
    (b : Block) (now : Nat)
    (hng : ¬(b.height = 0 ∧ b.parent_id = Id.empty))
    (hnew : exceptIsOk (State.get_block E s b.id) = false) :
    ((Block.verify E s b now).2 = none ↔
      ∃ p : Block, State.get_block E s b.parent_id = Except.ok p
        ∧ p.height = wrapSub1 b.height
        ∧ p.timestamp ≤ b.timestamp
        ∧ b.timestamp < now + 3600)
    ∧ ((Block.verify E s b now).2 = none →
        Block.verify E s b now = (State.add_verified s b, none)
        ∧ State.get_block E (State.add_verified s b) b.id = Except.ok b)
    ∧ ((Block.verify E s b now).2 ≠ none → (Block.verify E s b now).1 = s) := by
  have hv0 : Block.verify E s b now =
      (match State.get_block E s b.parent_id with
      | Except.error e => (s, some e)
      | Except.ok prnt_blk =>
        if prnt_blk.height ≠ wrapSub1 b.height then
          (s, some Err.parentHeightMismatch)
        else if prnt_blk.timestamp > b.timestamp then
          (s, some Err.parentTimestampNewer)
        else if b.timestamp ≥ now + 3600 then
          (s, some Err.blockTooFarAhead)
        else
          (State.add_verified s b, none)) := by
    rw [Block.verify, if_neg hng, if_neg (by rw [hnew]; exact Bool.false_ne_true)]
  rcases hp : State.get_block E s b.parent_id with e | p
  · have hv : Block.verify E s b now = (s, some e) := by rw [hv0, hp]
    refine ⟨?_, ?_, fun _ => by rw [hv]⟩
    · rw [hv]
      constructor
      · intro h
        exact absurd h (by simp)
      · rintro ⟨q, hq, -⟩
        exact absurd hq (by simp)
    · rw [hv]
      intro h
      exact absurd h (by simp)
  · have hv : Block.verify E s b now =
        (if p.height ≠ wrapSub1 b.height then (s, some Err.parentHeightMismatch)
         else if p.timestamp > b.timestamp then (s, some Err.parentTimestampNewer)
         else if b.timestamp ≥ now + 3600 then (s, some Err.blockTooFarAhead)
         else (State.add_verified s b, none)) := by rw [hv0, hp]
    rw [hv]
    split_ifs with h1 h2 h3
    · refine ⟨?_, ?_, fun _ => rfl⟩
      · constructor
        · intro h
          exact absurd h (by simp)
        · rintro ⟨q, hq, hq2, -, -⟩
          injection hq with hqe
          subst hqe
          exact absurd hq2 h1
      · intro h
        exact absurd h (by simp)
    · refine ⟨?_, ?_, fun _ => rfl⟩
      · constructor
        · intro h
          exact absurd h (by simp)
        · rintro ⟨q, hq, -, hq3, -⟩
          injection hq with hqe
          subst hqe
          omega
      · intro h
        exact absurd h (by simp)
    · refine ⟨?_, ?_, fun _ => rfl⟩
      · constructor
        · intro h
          exact absurd h (by simp)
        · rintro ⟨q, hq, -, -, hq4⟩
          injection hq with hqe
          subst hqe
          omega
      · intro h
        exact absurd h (by simp)
    · refine ⟨?_, fun _ => ⟨rfl, get_block_add_verified E s b⟩,
        fun h => absurd rfl h⟩
      constructor
      · intro _
        exact ⟨p, rfl, not_not.mp h1, by omega, by omega⟩
      · intro _
        rfl

/-- A parent block sitting in the verified-block cache under id 7. -/
def parentBlk : Block := ⟨0, 0, 0, "p", [], 7, Status.accepted, ⟨0, 0, 0, "p", []⟩⟩

/-- A well-formed child of parentBlk: height 1, a later timestamp, id 42. -/
def childBlk : Block := ⟨7, 1, 10, "c", [], 42, Status.processing, ⟨7, 1, 10, "c", []⟩⟩

/-- A state whose verified-block cache holds parentBlk and nothing else. -/
def parentInCacheState : State := ⟨[], none, [(7, parentBlk)], []⟩

/-- C2 witness: the valid (parent, height, timestamp) triple passes verify. -/
theorem verify_checks_parent_height_timestamps_witness :
    (Block.verify extTriv parentInCacheState childBlk 0).2 = none :=
  ((verify_checks_parent_height_timestamps extTriv parentInCacheState childBlk
    0 (by decide) (by decide)).1).mpr
    ⟨parentBlk, rfl, by decide, by decide, by decide⟩

/-- C6 counterexample: a genesis block (height 0, empty parent) that is
already persisted in the store is not handled by the already-decided rule —
the genesis branch runs first and (re)inserts the block into the
verified-block cache, so verify is not a no-op on the state. -/
def genesisSer : SerBlock := ⟨0, 0, 5, "g", []⟩

def genesisBlk : Block := ⟨0, 0, 5, "g", [], 42, Status.accepted, genesisSer⟩

def genesisInStoreState : State :=
  ⟨[(42, ⟨genesisSer, Status.accepted⟩)], some 42, [], []⟩

theorem verify_decided_genesis_not_noop_cex :
    (alookup genesisInStoreState.db_blocks genesisBlk.id).isSome = true
    ∧ Block.verify extTriv genesisInStoreState genesisBlk 0
        = (State.add_verified genesisInStoreState genesisBlk, none)
    ∧ Block.verify extTriv genesisInStoreState genesisBlk 0
        ≠ (genesisInStoreState, none) := by
  decide

/-- C6 (amended): for every non-genesis block whose id is already in the
persistent store, verify is a no-op success: it returns Ok without touching
the state (no parent/height/timestamp checks are reachable); a genesis block
already in the store instead takes the genesis branch and is re-inserted
into the verified-block cache. -/
theorem verify_already_decided_noop (E : Ext) (s : State) (b : Block)
    (now : Nat)
    (hng : ¬(b.height = 0 ∧ b.parent_id = Id.empty))
    (hdb : (alookup s.db_blocks b.id).isSome = true) :
    Block.verify E s b now = (s, none) := by
  have hok : exceptIsOk (State.get_block E s b.id) = true := by
    unfold State.get_block
    rcases h : alookup s.verified_blocks b.id with _ | blk
    · rcases h2 : alookup s.db_blocks b.id with _ | bws
      · rw [h2] at hdb
        simp at hdb
      · simp [exceptIsOk]
    · simp [exceptIsOk]
  rw [Block.verify, if_neg hng, if_pos hok]

/-- The store of a state holding the already-accepted childBlk record. -/
def decidedState : State :=
  ⟨[(42, ⟨⟨7, 1, 10, "c", []⟩, Status.accepted⟩)], some 42, [], []⟩

/-- C6 witness: verify of the already-persisted non-genesis block is a
no-op success. -/
theorem verify_already_decided_noop_witness :
    Block.verify extTriv decidedState childBlk 0 = (decidedState, none) :=
  verify_already_decided_noop extTriv decidedState childBlk 0 (by decide)
    (by decide)

/-- A height-0 block with a non-empty parent id (7) and fresh id 99. -/
def zeroHeightBlk : Block := ⟨7, 0, 5, "z", [], 99, Status.processing, ⟨7, 0, 5, "z", []⟩⟩

/-- C10 counterexample: a height-0 block whose parent_id is non-empty and
whose parent lookup succeeds does reach the parent-height check, so the u64
expression self.height - 1 is evaluated with self.height = 0 and wraps to
2^64 - 1 (it does not equal height - 1); verify then reports a parent-height
mismatch against the height-0 parent. -/
theorem verify_height_underflow_cex :
    zeroHeightBlk.height = 0
    ∧ zeroHeightBlk.parent_id ≠ Id.empty
    ∧ exceptIsOk (State.get_block extTriv parentInCacheState zeroHeightBlk.id)
        = false
    ∧ exceptIsOk (State.get_block extTriv parentInCacheState
        zeroHeightBlk.parent_id) = true
    ∧ wrapSub1 zeroHeightBlk.height = U64 - 1
    ∧ wrapSub1 zeroHeightBlk.height ≠ zeroHeightBlk.height - 1
    ∧ Block.verify extTriv parentInCacheState zeroHeightBlk 0
        = (parentInCacheState, some Err.parentHeightMismatch) := by
  decide

/-- C10 (amended): the expression self.height - 1 is evaluated whenever the
parent-height check is reached, including at height 0, where the u64
subtraction wraps to 2^64 - 1 (release semantics). For heights in 1..2^64
the expression equals the mathematical height - 1; for a height-0 block that
reaches the check, verify fails with the parent-height-mismatch error
whenever the parent's height is not 2^64 - 1, so the wrap yields an error
rather than an out-of-range acceptance. -/
theorem verify_height_sub_wrap_behavior :
    (∀ h : Nat, 1 ≤ h → h < U64 → wrapSub1 h = h - 1)
    ∧ wrapSub1 0 = U64 - 1
    ∧ (∀ (E : Ext) (s : State) (b : Block) (now : Nat) (p : Block),
        b.height = 0 →
        ¬(b.height = 0 ∧ b.parent_id = Id.empty) →
        exceptIsOk (State.get_block E s b.id) = false →
        State.get_block E s b.parent_id = Except.ok p →
        p.height ≠ U64 - 1 →
        Block.verify E s b now = (s, some Err.parentHeightMismatch)) := by
  have hz : wrapSub1 0 = U64 - 1 := by decide
  refine ⟨?_, hz, ?_⟩
  · intro h h1 h2
    unfold wrapSub1 U64 at *
    have h64 : (2 : Nat) ^ 64 = 18446744073709551616 := by norm_num
    rw [h64] at h2 ⊢
    omega
  · intro E s b now p hb0 hng hnew hp hph
    have hne : p.height ≠ wrapSub1 b.height := by
      rw [hb0, hz]
      exact hph
    have hv : Block.verify E s b now =
        (if p.height ≠ wrapSub1 b.height then (s, some Err.parentHeightMismatch)
         else if p.timestamp > b.timestamp then
           (s, some Err.parentTimestampNewer)
         else if b.timestamp ≥ now + 3600 then (s, some Err.blockTooFarAhead)
         else (State.add_verified s b, none)) := by
      rw [Block.verify, if_neg hng,
        if_neg (by rw [hnew]; exact Bool.false_ne_true), hp]
    rw [hv, if_pos hne]

/-- C10 witness for the amended claim: the concrete height-0 block against
the cached height-0 parent fails the (wrapped) height check. -/
theorem verify_height_sub_wrap_behavior_witness :
    Block.verify extTriv parentInCacheState zeroHeightBlk 1234
      = (parentInCacheState, some Err.parentHeightMismatch) :=
  verify_height_sub_wrap_behavior.2.2 extTriv parentInCacheState zeroHeightBlk
    1234 parentBlk rfl (by decide) (by decide) rfl (by decide)

end ChessVM
